import Mathlib

/-
Verification of the 5e-mcp session engine core (gwyntel/5e-mcp).

Shallow embedding of the resource/combat state machine:
  - models/character.py  : Health, DeathSaves records
  - models/combat.py     : Combatant, CombatState records, current_actor
  - tools/character.py   : update_hp (damage / healing / temp branches, player path)
  - tools/checks.py      : make_death_save
  - tools/combat.py      : start_combat, next_turn, the outcome selection of make_attack
  - tools/dice.py        : roll_dice (the regex match-and-extract step and the
    outcome of the roll step, including the empty-range ValueError of randint)

Python machine integers are unbounded, so hit points, amounts and counters are
embedded as Int (or Nat where the source value is a count that cannot go
negative, such as a d20 roll or a list index).
-/

namespace DndMcp

/-- Death-save counters (models/character.py, class DeathSaves): two integer
counters, both defaulting to 0. -/
structure DeathSaves where
  successes : Int
  failures : Int
deriving Repr, DecidableEq

/-- Health record (models/character.py, class Health).  The hit-dice store is
not embedded: no claim below depends on it. -/
structure Health where
  current_hp : Int
  max_hp : Int
  temp_hp : Int
  death_saves : DeathSaves
deriving Repr, DecidableEq

/-- The three modes of tools/character.py update_hp
(`type: Literal["damage", "healing", "temp"]`). -/
inductive HpType where
  | damage
  | healing
  | temp
deriving Repr, DecidableEq

/-- tools/character.py, update_hp, healing branch (lines 73-79): if the
character was at or below 0 HP, healing first clears both death-save counters;
then `current_hp = min(current_hp + amount, max_hp)`. -/
def applyHealing (h : Health) (amount : Int) : Health :=
  let h1 := if h.current_hp ≤ 0 then { h with death_saves := ⟨0, 0⟩ } else h
  { h1 with current_hp := min (h1.current_hp + amount) h1.max_hp }

/-- tools/character.py, update_hp, damage branch (lines 81-93): if
`temp_hp > 0`, `absorbed = min(temp_hp, remaining)` is taken out of temp HP
first; the remaining damage lowers `current_hp`, floored at 0 by
`max(current_hp - remaining_damage, 0)`. -/
def applyDamage (h : Health) (amount : Int) : Health :=
  let p : Int × Int :=
    if h.temp_hp > 0 then
      let absorbed := min h.temp_hp amount
      (h.temp_hp - absorbed, amount - absorbed)
    else
      (h.temp_hp, amount)
  { h with temp_hp := p.1, current_hp := max (h.current_hp - p.2) 0 }

/-- tools/character.py, update_hp, damage branch, line 92: after applying
damage the code appends the "VALID_STATUS: UNCONSCIOUS. Start Death Saves."
message exactly when the resulting `current_hp == 0`. -/
def damageSignalsUnconscious (h : Health) (amount : Int) : Bool :=
  (applyDamage h amount).current_hp == 0

/-- tools/character.py, update_hp, temp branch (lines 95-101): temp HP does
not stack; it is replaced only when the new amount is strictly greater. -/
def applyTempHP (h : Health) (amount : Int) : Health :=
  if amount > h.temp_hp then { h with temp_hp := amount } else h

/-- tools/character.py, update_hp, player path (lines 73-101), dispatch on the
`type` argument.  The source has no error outcome on this path other than the
absent-character guard (not part of the health state), and in particular no
guard on the death-save counters: the function unconditionally mutates. -/
def update_hp (h : Health) (ty : HpType) (amount : Int) : Health :=
  match ty with
  | .healing => applyHealing h amount
  | .damage => applyDamage h amount
  | .temp => applyTempHP h amount

/-- The health invariant of spec section 8: HP within bounds and non-negative
temporary HP. -/
def healthInv (h : Health) : Prop :=
  0 ≤ h.current_hp ∧ h.current_hp ≤ h.max_hp ∧ 0 ≤ h.temp_hp

instance (h : Health) : Decidable (healthInv h) := by
  unfold healthInv
  infer_instance

/-- One update_hp call described by its `type` and `amount` arguments. -/
def hpStep (h : Health) (p : HpType × Int) : Health :=
  update_hp h p.1 p.2

/-- Which die-roll branch of make_death_save fired. -/
inductive DSTag where
  | critFailure
  | critSuccess
  | success
  | failure
deriving Repr, DecidableEq

/-- Outcome of the post-roll status check in make_death_save. -/
inductive DSStatus where
  | ongoing
  | stabilized
  | dead
deriving Repr, DecidableEq

/-- tools/checks.py, make_death_save, lines 103-108: after the roll is applied,
`successes >= 3` resets both counters (stabilized); otherwise `failures >= 3`
reports death (counters are left as they are). -/
def deathSaveCheck (h : Health) (tag : DSTag) : Health × DSTag × DSStatus :=
  if h.death_saves.successes ≥ 3 then
    ({ h with death_saves := ⟨0, 0⟩ }, tag, .stabilized)
  else if h.death_saves.failures ≥ 3 then
    (h, tag, .dead)
  else
    (h, tag, .ongoing)

/-- tools/checks.py, make_death_save (lines 75-111), with the d20 draw made an
explicit argument.  `none` is the "Character is not unconscious (HP > 0)."
early return (the state is untouched there).  A roll of 20 returns before the
status check, exactly as the source does. -/
def make_death_save (h : Health) (roll : Nat) : Option (Health × DSTag × DSStatus) :=
  if h.current_hp > 0 then
    none
  else if roll = 1 then
    some (deathSaveCheck
      { h with death_saves := ⟨h.death_saves.successes, h.death_saves.failures + 2⟩ }
      .critFailure)
  else if roll = 20 then
    some ({ h with current_hp := 1, death_saves := ⟨0, 0⟩ }, .critSuccess, .ongoing)
  else if roll ≥ 10 then
    some (deathSaveCheck
      { h with death_saves := ⟨h.death_saves.successes + 1, h.death_saves.failures⟩ }
      .success)
  else
    some (deathSaveCheck
      { h with death_saves := ⟨h.death_saves.successes, h.death_saves.failures + 1⟩ }
      .failure)

/-- Combatant record (models/combat.py, class Combatant).  `type` is one of
the literal strings "player", "monster", "npc"; `status` is a free string,
"active" by default. -/
structure Combatant where
  id : String
  name : String
  type : String
  initiative : Int
  hp : Int
  max_hp : Int
  ac : Int
  status : String
deriving Repr, DecidableEq

/-- Combat record (models/combat.py, class CombatState). -/
structure CombatState where
  active : Bool
  round : Nat
  turn_index : Nat
  combatants : List Combatant
deriving Repr, DecidableEq

/-- models/combat.py, property current_actor: `None` when the roster is empty,
otherwise the combatant at `turn_index`.  (In Python an out-of-range index on
a nonempty roster would raise; every access in next_turn below keeps the index
in range, where list indexing and `getElem?` agree.) -/
def current_actor (s : CombatState) : Option Combatant :=
  if s.combatants.isEmpty then none
  else s.combatants[s.turn_index]?

/-- The message family returned by tools/combat.py next_turn. -/
inductive TurnMsg where
  | noActiveCombat
  | noCombatants
  | roundBegins (round : Nat) (actorName : Option String)
  | turnOf (name : String)
  | noCurrentActor
deriving Repr, DecidableEq

/-- tools/combat.py, next_turn, the `while current.status != "active"` loop
(lines 172-185).  The Python loop walks `turn_index` through positions
`i, i+1, ...`; this embedding recurses over the corresponding roster suffix
`rest = s.combatants.drop i`, which is what makes termination structural.
Passing the end of the roster wraps `turn_index` to 0, increments `round`, and
returns the round-begin message naming the (possibly inactive) new current
actor, exactly as the source's early return does. -/
def skipInactive (s : CombatState) (i : Nat) (rest : List Combatant) :
    CombatState × TurnMsg :=
  match rest with
  | [] =>
    let s1 := { s with turn_index := 0, round := s.round + 1 }
    (s1, .roundBegins s1.round ((current_actor s1).map Combatant.name))
  | c :: rest1 =>
    if c.status = "active" then
      ({ s with turn_index := i }, .turnOf c.name)
    else
      skipInactive s (i + 1) rest1

/-- tools/combat.py, next_turn (lines 143-188): guard on inactive combat and
empty roster, increment `turn_index`, wrap (incrementing `round`) when it
passes the roster length, then skip past non-"active" combatants via
`skipInactive`.  The source's "No current actor found." branches are
represented by `noCurrentActor`; they are unreachable here because
current_actor returns `none` only for an empty roster, which was already
handled. -/
def next_turn (s : CombatState) : CombatState × TurnMsg :=
  if s.active = false then
    (s, .noActiveCombat)
  else if s.combatants.isEmpty then
    (s, .noCombatants)
  else
    let i := s.turn_index + 1
    if i ≥ s.combatants.length then
      let s1 := { s with turn_index := 0, round := s.round + 1 }
      (s1, .roundBegins s1.round ((current_actor s1).map Combatant.name))
    else
      match current_actor { s with turn_index := i } with
      | none => ({ s with turn_index := i }, .noCurrentActor)
      | some c =>
        if c.status = "active" then
          ({ s with turn_index := i }, .turnOf c.name)
        else
          skipInactive s (i + 1) (s.combatants.drop (i + 1))

/-- Attack outcome labels of the message built by tools/combat.py make_attack. -/
inductive AttackOutcome where
  | hit
  | criticalHit
  | miss
deriving Repr, DecidableEq

/-- tools/combat.py, make_attack, outcome selection (lines 277-282), with the
raw d20 roll and the rolled damage value made explicit arguments:
`if total_to_hit >= target.ac` reports HIT with the rolled damage;
`elif d20_roll == 20` reports CRITICAL HIT with the damage value doubled
(`dmg_val * 2`, dice not re-rolled); `else` reports MISS (no damage value in
the message, embedded as `none`). -/
def make_attack_outcome (d20_roll : Nat) (attack_bonus : Int) (target_ac : Int)
    (dmg_val : Int) : AttackOutcome × Option Int :=
  let total_to_hit : Int := (d20_roll : Int) + attack_bonus
  if total_to_hit ≥ target_ac then
    (.hit, some dmg_val)
  else if d20_roll = 20 then
    (.criticalHit, some (dmg_val * 2))
  else
    (.miss, none)

/-- The outcome rule in the spec's words (section 4.2): CriticalHit whenever
the raw d20 is 20 (damage doubled), otherwise Hit when the total meets the AC,
otherwise Miss.  Spec-side definition, for comparison with
`make_attack_outcome` only. -/
def attackOutcomeSpec (d20_roll : Nat) (attack_bonus : Int) (target_ac : Int)
    (dmg_val : Int) : AttackOutcome × Option Int :=
  if d20_roll = 20 then
    (.criticalHit, some (dmg_val * 2))
  else if (d20_roll : Int) + attack_bonus ≥ target_ac then
    (.hit, some dmg_val)
  else
    (.miss, none)

/-- The whitespace set of Python's `str.strip()` and of `\s` in a `str`
regex, restricted to ASCII (Python also strips other Unicode whitespace; the
claims only involve ASCII input). -/
def pySpace (c : Char) : Bool :=
  c == ' ' || c == '\t' || c == '\n' || c == '\r' || c == Char.ofNat 11 || c == Char.ofNat 12

/-- Python `str.strip()` on a character list. -/
def pyStrip (l : List Char) : List Char :=
  ((l.dropWhile pySpace).reverse.dropWhile pySpace).reverse

/-- Python `int(...)` on a nonempty ASCII digit string. -/
def natOfDigits (l : List Char) : Nat :=
  l.foldl (fun n c => n * 10 + (c.toNat - 48)) 0

/-- tools/dice.py, roll_dice, the match-and-extract step (lines 10-19):
`re.match(r"(\d+)d(\d+)([\+\-]\d+)?", expression.strip())`, with
`count = int(g1)`, `sides = int(g2)`, `modifier = int(g3) if g3 else 0`.
`re.match` anchors at the start only, so anything after the matched prefix is
ignored.  Greedy `\d+` takes the maximal digit run, and the optional modifier
group matches empty (modifier 0) when no sign-then-digit follows.  `none` is
the "Error: Invalid dice expression" return; the subsequent random rolling is
not modelled, since the claims concern acceptance. -/
def roll_dice_parse (expression : String) : Option (Nat × Nat × Int) :=
  let l := pyStrip expression.toList
  let d1 := l.takeWhile Char.isDigit
  if d1.isEmpty then none
  else
    match l.dropWhile Char.isDigit with
    | [] => none
    | c :: r2 =>
      if c = 'd' then
        let d2 := r2.takeWhile Char.isDigit
        if d2.isEmpty then none
        else
          let modifier : Int :=
            match r2.dropWhile Char.isDigit with
            | c3 :: r4 =>
              if c3 = '+' ∨ c3 = '-' then
                let d3 := r4.takeWhile Char.isDigit
                if d3.isEmpty then 0
                else if c3 = '-' then -(natOfDigits d3 : Int) else (natOfDigits d3 : Int)
              else 0
            | [] => 0
          some (natOfDigits d1, natOfDigits d2, modifier)
      else none

/-- The full textual dice format in the spec's words (section 6): the whole
string is `<positive integer>d<positive integer>` optionally followed by `+`
or `-` and an integer, and nothing else.  Spec-side definition, for comparison
with `roll_dice_parse` only. -/
def specDiceFormat (s : String) : Bool :=
  let l := s.toList
  let d1 := l.takeWhile Char.isDigit
  match l.dropWhile Char.isDigit with
  | 'd' :: r2 =>
    let d2 := r2.takeWhile Char.isDigit
    (!d1.isEmpty) && (!d2.isEmpty) && (natOfDigits d1 != 0) && (natOfDigits d2 != 0) &&
      (match r2.dropWhile Char.isDigit with
       | [] => true
       | c :: r4 => ((c == '+') || (c == '-')) && (!r4.isEmpty) && r4.all Char.isDigit)
  | _ => false

/-- What the code actually accepts, in plain words: after stripping, the input
begins with one or more digits, then the letter d, then at least one more
digit; everything after that prefix is irrelevant.  Spec-side
characterization, for comparison with `roll_dice_parse` only. -/
def diceAccepted (s : String) : Prop :=
  ∃ d1 d2 rest, pyStrip s.toList = d1 ++ 'd' :: (d2 ++ rest) ∧
    d1 ≠ [] ∧ d2 ≠ [] ∧ (∀ c ∈ d1, Char.isDigit c) ∧ (∀ c ∈ d2, Char.isDigit c)

/-- How a roll_dice call ends: the "Error: Invalid dice expression" return on
a failed match, an uncaught ValueError escaping from `random.randint`, or a
rolled value (recorded by the parsed count / sides / modifier; the numeric
total consumes randomness and is not modelled). -/
inductive RollOutcome where
  | invalidExpr
  | valueError
  | rolled (count : Nat) (sides : Nat) (modifier : Int)
deriving Repr, DecidableEq

/-- tools/dice.py, roll_dice (lines 5-56), outcome level, on the default
straight-roll path (advantage and disadvantage both false).  After a
successful match, `roll_one` evaluates
`[random.randint(1, sides) for _ in range(count)]`; `random.randint(a, b)`
raises ValueError when a > b, so the call raises exactly when `count ≥ 1` and
`sides = 0` (sides is a parsed digit string, hence never negative; with
count = 0 randint is never reached and the sum is the bare modifier).  There
is no try/except around it, so the ValueError escapes instead of either a
value or the invalid-expression error. -/
def roll_dice (expression : String) : RollOutcome :=
  match roll_dice_parse expression with
  | none => .invalidExpr
  | some (count, sides, modifier) =>
    if 1 ≤ count ∧ sides = 0 then .valueError
    else .rolled count sides modifier

/-- When roll_dice actually produces a rolled value, in plain words: the
stripped input begins with one or more digits, then the letter d, then the
full following digit run (`rest` starts with a non-digit, so `d2` is the
maximal run the greedy regex takes), and the sides value is nonzero or the
count is zero (otherwise randint's empty range raises).  Spec-side
characterization, for comparison with `roll_dice` only. -/
def diceValueSpec (s : String) : Prop :=
  ∃ d1 d2 rest, pyStrip s.toList = d1 ++ 'd' :: (d2 ++ rest) ∧
    d1 ≠ [] ∧ d2 ≠ [] ∧ (∀ c ∈ d1, Char.isDigit c) ∧ (∀ c ∈ d2, Char.isDigit c) ∧
    (∀ c, rest.head? = some c → Char.isDigit c = false) ∧
    (natOfDigits d2 ≠ 0 ∨ natOfDigits d1 = 0)

/-- The slice of the monster-catalog record that tools/combat.py start_combat
reads: `data.get("name", ...)`, `data.get("hit_points", 10)`,
`data.get("armor_class", 10)`.  The catalog itself (tools/lookup.py) is an
external collaborator per spec section 2, so lookups are a parameter below. -/
structure MonsterData where
  name : Option String
  hit_points : Option Int
  armor_class : Option Int

/-- The slice of the character record that start_combat reads when seeding the
player combatant (char.id, identity.name, health.current_hp, health.max_hp,
defense.ac). -/
structure CharSummary where
  id : String
  name : String
  current_hp : Int
  max_hp : Int
  ac : Int

/-- tools/combat.py, start_combat, lines 46-55: the count-prefix parse
`re.match(r'^(\d+)\s+(.*)$', monster_name)` on the already-stripped name.
Greedy `\d+` and `\s+` take maximal runs; `.` does not match a newline, so the
match fails when the remainder contains one (the `$`-before-trailing-newline
case cannot arise because the input is stripped).  `none` keeps count 1 and
the whole stripped name. -/
def parse_count (s : String) : Option (Nat × String) :=
  let l := s.toList
  let d := l.takeWhile Char.isDigit
  let r1 := l.dropWhile Char.isDigit
  let w := r1.takeWhile pySpace
  let rest := r1.dropWhile pySpace
  if d.isEmpty || w.isEmpty || rest.contains '\n' then none
  else some (natOfDigits d, String.mk rest)

/-- tools/combat.py, start_combat, line 59:
`base_id = monster_name.lower().replace(" ", "_")` (ASCII lower-casing; the
claims only involve ASCII names). -/
def base_id_of (name : String) : String :=
  name.toLower.replace " " "_"

/-- tools/combat.py, start_combat, lines 60-65, the unique-id `while` loop:
candidates `base, base_1, base_2, ...` until one is free.  The candidates are
pairwise distinct, so at most `ids.length + 1` of them can be occupied; that
bound is the fuel, making the recursion structural while reaching exactly the
id the source loop reaches. -/
def uniqueMobIdAux (ids : List String) (base : String) :
    String → Nat → Nat → String
  | cand, _, 0 => cand
  | cand, k, fuel + 1 =>
    if ids.contains cand then
      uniqueMobIdAux ids base (base ++ "_" ++ toString k) (k + 1) fuel
    else cand

/-- Entry point of the unique-id search (candidate `base`, suffix starts
at 1). -/
def uniqueMobId (ids : List String) (base : String) : String :=
  uniqueMobIdAux ids base base 1 (ids.length + 1)

/-- tools/combat.py, start_combat, lines 57-87: append `count` copies of the
named monster, each with a fresh unique id; catalog data supplies name / hit
points / armor class with defaults 10 and 10, and a full lookup miss falls
back to HP 10, AC 12. -/
def add_monsters (lookup : String → Option MonsterData) (monster_name : String) :
    Nat → List Combatant → List Combatant
  | 0, acc => acc
  | n + 1, acc =>
    let mob_id := uniqueMobId (acc.map Combatant.id) (base_id_of monster_name)
    let mob : Combatant :=
      match lookup monster_name with
      | some data =>
        { id := mob_id, name := data.name.getD monster_name, type := "monster",
          initiative := 0, hp := data.hit_points.getD 10,
          max_hp := data.hit_points.getD 10, ac := data.armor_class.getD 10,
          status := "active" }
      | none =>
        { id := mob_id, name := monster_name, type := "monster", initiative := 0,
          hp := 10, max_hp := 10, ac := 12, status := "active" }
    add_monsters lookup monster_name n (acc ++ [mob])

/-- The two messages start_combat can return. -/
inductive StartMsg where
  | alreadyActive
  | started (ncombatants : Nat)
deriving Repr, DecidableEq

/-- tools/combat.py, start_combat (lines 10-90): rejected outright while a
combat is active; otherwise sets `active = True`, `round = 1`, clears the
roster, seeds the player (when a character record exists) from their live
HP/AC, then resolves each entity reference (skipping one equal to the
player's id, before stripping) through the count parse and `add_monsters`.
The source never writes `turn_index`, so the embedding leaves it as it was. -/
def start_combat (s : CombatState) (character : Option CharSummary)
    (lookup : String → Option MonsterData) (entities : List String) :
    CombatState × StartMsg :=
  if s.active then (s, .alreadyActive)
  else
    let pcs : List Combatant :=
      match character with
      | some ch =>
        [{ id := ch.id, name := ch.name, type := "player", initiative := 0,
           hp := ch.current_hp, max_hp := ch.max_hp, ac := ch.ac, status := "active" }]
      | none => []
    let roster := entities.foldl
      (fun acc entity_ref =>
        if character.map CharSummary.id = some entity_ref then acc
        else
          let stripped := String.mk (pyStrip entity_ref.toList)
          match parse_count stripped with
          | some p => add_monsters lookup p.2 p.1 acc
          | none => add_monsters lookup stripped 1 acc)
      pcs
    ({ s with active := true, round := 1, combatants := roster },
      .started roster.length)

section HealthTheorems

lemma update_hp_preserves_inv (h : Health) (ty : HpType) (a : Int)
    (hinv : healthInv h) (ha : 0 ≤ a) : healthInv (update_hp h ty a) := by
  obtain ⟨h1, h2, h3⟩ := hinv
  cases ty with
  | healing =>
    simp only [update_hp, applyHealing, healthInv]
    split_ifs <;> (try simp) <;> omega
  | damage =>
    simp only [update_hp, applyDamage, healthInv]
    split_ifs <;> (try simp) <;> omega
  | temp =>
    simp only [update_hp, applyTempHP, healthInv]
    split_ifs <;> (try simp) <;> omega

/-- C6: starting from a health state with `0 ≤ current_hp ≤ max_hp` and
`0 ≤ temp_hp`, any finite sequence of update_hp calls (damage / healing /
temp) with non-negative amounts keeps `0 ≤ current_hp ≤ max_hp` and
`0 ≤ temp_hp` after every call: every prefix of the sequence ends in a state
satisfying the invariant. -/
theorem update_hp_sequence_invariant (ops : List (HpType × Int)) (h : Health)
    (hinv : healthInv h) (hamt : ∀ p ∈ ops, 0 ≤ p.2) (n : Nat) :
    healthInv (List.foldl hpStep h (List.take n ops)) := by
  induction ops generalizing h n with
  | nil => simpa using hinv
  | cons p rest ih =>
    cases n with
    | zero => simpa using hinv
    | succ m =>
      simp only [List.take, List.foldl]
      exact ih (hpStep h p)
        (update_hp_preserves_inv h p.1 p.2 hinv (hamt p (by simp)))
        (fun q hq => hamt q (by simp [hq])) m

/-- Witness for C6 on a concrete two-call sequence. -/
theorem update_hp_sequence_invariant_witness :
    healthInv (List.foldl hpStep ⟨20, 20, 5, ⟨0, 0⟩⟩
      (List.take 2 [(HpType.damage, 10), (HpType.healing, 3)])) :=
  update_hp_sequence_invariant [(HpType.damage, 10), (HpType.healing, 3)]
    ⟨20, 20, 5, ⟨0, 0⟩⟩ (by decide) (by decide) 2

/-- C8: a damage call with a non-negative amount (on a state with
non-negative temp HP) consumes temporary HP first: exactly
`min temp_hp amount` leaves `temp_hp` and the remainder comes off
`current_hp`, floored at 0; max HP and the death-save counters are
untouched. -/
theorem applyDamage_absorbs_temp_first (h : Health) (a : Int)
    (ha : 0 ≤ a) (ht : 0 ≤ h.temp_hp) :
    update_hp h HpType.damage a =
      { h with temp_hp := h.temp_hp - min h.temp_hp a,
               current_hp := max (h.current_hp - (a - min h.temp_hp a)) 0 } := by
  simp only [update_hp, applyDamage]
  split_ifs with h1
  · rfl
  · have h0 : h.temp_hp = 0 := le_antisymm (not_lt.mp h1) ht
    rw [h0]
    simp [min_eq_left ha]

/-- Witness for C8: the spec's own example, `temp_hp = 5`,
`current_hp = 20/20`, damage 10 gives `temp_hp = 0`, `current_hp = 15`. -/
theorem applyDamage_absorbs_temp_first_witness :
    update_hp ⟨20, 20, 5, ⟨0, 0⟩⟩ HpType.damage 10 = ⟨15, 20, 0, ⟨0, 0⟩⟩ :=
  (applyDamage_absorbs_temp_first ⟨20, 20, 5, ⟨0, 0⟩⟩ 10 (by decide) (by decide)).trans
    (by decide)

/-- C9: a temp-HP call results in `temp_hp = max (old temp_hp) amount` — the
value is replaced only when strictly greater, never decreases, repeating the
same call changes nothing further, and `current_hp` is untouched. -/
theorem applyTempHP_no_stack (h : Health) (a : Int) :
    (update_hp h HpType.temp a).temp_hp = max h.temp_hp a ∧
    h.temp_hp ≤ (update_hp h HpType.temp a).temp_hp ∧
    update_hp (update_hp h HpType.temp a) HpType.temp a = update_hp h HpType.temp a ∧
    (update_hp h HpType.temp a).current_hp = h.current_hp := by
  refine ⟨?_, ?_, ?_, ?_⟩ <;>
    simp only [update_hp, applyTempHP] <;>
    split_ifs <;>
    first | rfl | omega | (simp_all; omega)

/-- C10: a damage call on a character already at 0 HP with no temporary HP
leaves `current_hp` at 0 and both death-save counters exactly as they were
(damage at 0 HP never adds death-save failures), and the code's
unconscious-status message fires again. -/
theorem applyDamage_at_zero_hp (h : Health) (a : Int) (ha : 0 ≤ a)
    (hhp : h.current_hp = 0) (ht : h.temp_hp = 0) :
    (update_hp h HpType.damage a).current_hp = 0 ∧
    (update_hp h HpType.damage a).death_saves = h.death_saves ∧
    damageSignalsUnconscious h a = true := by
  have hd : (update_hp h HpType.damage a).current_hp = 0 := by
    simp only [update_hp, applyDamage]
    split_ifs with h1
    · omega
    · simp [hhp]
      omega
  refine ⟨hd, ?_, ?_⟩
  · simp only [update_hp, applyDamage]
  · simp only [damageSignalsUnconscious, beq_iff_eq]
    exact hd

/-- Witness for C10 at a concrete state. -/
theorem applyDamage_at_zero_hp_witness :
    (update_hp ⟨0, 24, 0, ⟨1, 2⟩⟩ HpType.damage 7).current_hp = 0 ∧
    (update_hp ⟨0, 24, 0, ⟨1, 2⟩⟩ HpType.damage 7).death_saves = DeathSaves.mk 1 2 ∧
    damageSignalsUnconscious ⟨0, 24, 0, ⟨1, 2⟩⟩ 7 = true :=
  applyDamage_at_zero_hp ⟨0, 24, 0, ⟨1, 2⟩⟩ 7 (by decide) (by decide) (by decide)

end HealthTheorems

section DeathSaveTheorems

/-- C7: a death save is valid only when `current_hp ≤ 0` — with positive HP
the source returns its not-unconscious error before touching any state, which
the embedding renders as `none` (no new state is produced) — and for every
valid call the d20 draw maps as the claim states: 1 adds exactly 2 to
failures; 20 sets `current_hp` to 1 and resets both counters no matter what
they were; 10-19 adds 1 to successes, and if that reaches 3 both counters
reset (stabilized, HP untouched); 2-9 adds 1 to failures.  The counter
hypotheses restrict to in-play states (counters below 3), which is where the
roll-1 / 10-19 / 2-9 clauses of the claim live; the error clause and the
roll-20 clause need no such hypothesis. -/
theorem make_death_save_cases (h : Health) (roll : Nat) :
    (0 < h.current_hp → make_death_save h roll = none) ∧
    (h.current_hp ≤ 0 →
    (roll = 20 →
      make_death_save h roll =
        some ({ h with current_hp := 1, death_saves := ⟨0, 0⟩ },
          DSTag.critSuccess, DSStatus.ongoing)) ∧
    (h.death_saves.successes < 3 →
      (roll = 1 →
        make_death_save h roll =
          some ({ h with death_saves :=
              ⟨h.death_saves.successes, h.death_saves.failures + 2⟩ },
            DSTag.critFailure,
            if h.death_saves.failures + 2 ≥ 3 then DSStatus.dead else DSStatus.ongoing)) ∧
      (10 ≤ roll → roll ≤ 19 →
        make_death_save h roll =
          some (if 2 ≤ h.death_saves.successes
            then ({ h with death_saves := ⟨0, 0⟩ }, DSTag.success, DSStatus.stabilized)
            else ({ h with death_saves :=
                ⟨h.death_saves.successes + 1, h.death_saves.failures⟩ },
              DSTag.success,
              if h.death_saves.failures ≥ 3 then DSStatus.dead else DSStatus.ongoing))) ∧
      (2 ≤ roll → roll ≤ 9 →
        make_death_save h roll =
          some ({ h with death_saves :=
              ⟨h.death_saves.successes, h.death_saves.failures + 1⟩ },
            DSTag.failure,
            if h.death_saves.failures + 1 ≥ 3 then DSStatus.dead else DSStatus.ongoing)))) := by
  refine ⟨fun hpos => ?_, fun hhp => ?_⟩
  · simp [make_death_save, hpos]
  have hng : ¬ (h.current_hp > 0) := not_lt.mpr hhp
  refine ⟨?_, fun hs => ⟨?_, ?_, ?_⟩⟩
  · intro h20; subst h20
    simp [make_death_save, hng]
  · intro h1; subst h1
    have hns : ¬ (h.death_saves.successes ≥ 3) := not_le.mpr hs
    simp [make_death_save, deathSaveCheck, hng, hns]
    split_ifs <;> simp_all
  · intro h10 h19
    have hr1 : ¬ (roll = 1) := by omega
    have hr20 : ¬ (roll = 20) := by omega
    simp [make_death_save, deathSaveCheck, hng, hr1, hr20, h10]
    split_ifs <;> simp_all <;> omega
  · intro h2 h9
    have hr1 : ¬ (roll = 1) := by omega
    have hr20 : ¬ (roll = 20) := by omega
    have hr10 : ¬ (roll ≥ 10) := by omega
    have hns : ¬ (h.death_saves.successes ≥ 3) := not_le.mpr hs
    simp [make_death_save, deathSaveCheck, hng, hr1, hr20, hr10, hns]
    split_ifs <;> simp_all

/-- Witness for C7: a conscious character (HP 5) gets the error and no new
state; at 0 HP with two prior successes and one prior failure, a roll of 12
stabilizes — both counters reset, HP still 0. -/
theorem make_death_save_cases_witness :
    make_death_save ⟨5, 20, 0, ⟨0, 0⟩⟩ 12 = none ∧
    make_death_save ⟨0, 20, 0, ⟨2, 1⟩⟩ 12 =
      some (⟨0, 20, 0, ⟨0, 0⟩⟩, DSTag.success, DSStatus.stabilized) :=
  ⟨(make_death_save_cases ⟨5, 20, 0, ⟨0, 0⟩⟩ 12).1 (by decide),
   (((((make_death_save_cases ⟨0, 20, 0, ⟨2, 1⟩⟩ 12).2 (by decide)).2
     (by decide)).2.1 (by decide) (by decide)).trans (by decide))⟩

end DeathSaveTheorems

section CombatTheorems

/-- C1 (code bug): `make_attack` tests `total_to_hit >= target.ac` before the
natural-20 test, so a forced raw d20 of 20 with attack bonus +4 against AC 15
(the spec's own scenario) reports a plain Hit with the undoubled damage value,
where the claim requires CriticalHit with the damage doubled.  The spec's
CriticalHit branch is only reachable when 20 + bonus still misses the AC. -/
theorem make_attack_nat20_shadowed :
    make_attack_outcome 20 4 15 6 = (AttackOutcome.hit, some 6) ∧
    attackOutcomeSpec 20 4 15 6 = (AttackOutcome.criticalHit, some 12) ∧
    make_attack_outcome 20 4 15 6 ≠ attackOutcomeSpec 20 4 15 6 ∧
    make_attack_outcome 20 (-10) 15 6 = (AttackOutcome.criticalHit, some 12) := by
  decide

/-- C2 (code bug): on a roster whose combatants are all non-active (one dead,
one fled), next_turn terminates — the embedding is structurally total — but
wraps and returns the ordinary round-begin message naming the dead combatant,
not any reported error. -/
theorem next_turn_all_inactive_normal_message :
    next_turn ⟨true, 1, 0,
      [⟨"goblin", "Goblin", "monster", 0, 0, 7, 15, "dead"⟩,
       ⟨"wolf", "Wolf", "monster", 0, 0, 11, 13, "fled"⟩]⟩ =
    (⟨true, 2, 0,
      [⟨"goblin", "Goblin", "monster", 0, 0, 7, 15, "dead"⟩,
       ⟨"wolf", "Wolf", "monster", 0, 0, 11, 13, "fled"⟩]⟩,
     TurnMsg.roundBegins 2 (some "Goblin")) := by
  decide

/-- C3 (code bug): update_hp has no terminal-state guard.  A character whose
death-save failures have reached 3 (Dead per the spec) is healed without any
error: a healing call on that state silently sets `current_hp` to 5 and even
clears the death-save counters. -/
theorem update_hp_heals_dead_character :
    update_hp ⟨0, 20, 0, ⟨0, 3⟩⟩ HpType.healing 5 = ⟨5, 20, 0, ⟨0, 0⟩⟩ := by
  decide

/-- C5 counterexample: a successful start from an inactive state whose
previous combat left `turn_index` at 2 produces a started combat whose
`turn_index` is still 2, not 0 as the claim requires. -/
theorem start_combat_keeps_stale_turn_index :
    (start_combat ⟨false, 3, 2, []⟩ none (fun _ => none) []).2 = StartMsg.started 0 ∧
    (start_combat ⟨false, 3, 2, []⟩ none (fun _ => none) []).1.turn_index = 2 := by
  decide

/-- C5 (amended): start_combat called while a combat is active rejects the
request and returns the state unchanged; every successful start yields an
active state with `round = 1`, but `turn_index` is never written — it keeps
whatever value the previous combat left. -/
theorem start_combat_state_change (s : CombatState) (character : Option CharSummary)
    (lookup : String → Option MonsterData) (entities : List String) :
    (s.active = true →
      start_combat s character lookup entities = (s, StartMsg.alreadyActive)) ∧
    (s.active = false →
      (start_combat s character lookup entities).1.active = true ∧
      (start_combat s character lookup entities).1.round = 1 ∧
      (start_combat s character lookup entities).1.turn_index = s.turn_index) := by
  constructor
  · intro ha
    simp [start_combat, ha]
  · intro ha
    simp [start_combat, ha]

/-- Witness for C5: both clauses at concrete inputs — rejection while active,
and round/turn_index of a fresh start. -/
theorem start_combat_state_change_witness :
    start_combat ⟨true, 4, 1, []⟩ none (fun _ => none) [] =
      (⟨true, 4, 1, []⟩, StartMsg.alreadyActive) ∧
    (start_combat ⟨false, 4, 1, []⟩ none (fun _ => none) ["Goblin"]).1.round = 1 :=
  ⟨(start_combat_state_change ⟨true, 4, 1, []⟩ none (fun _ => none) []).1 rfl,
   ((start_combat_state_change ⟨false, 4, 1, []⟩ none (fun _ => none) ["Goblin"]).2 rfl).2.1⟩

end CombatTheorems

section DiceTheorems

lemma takeWhile_dropWhile_append {p : Char → Bool} (a : List Char) (c : Char)
    (t : List Char) (ha : ∀ x ∈ a, p x) (hc : p c = false) :
    (a ++ c :: t).takeWhile p = a ∧ (a ++ c :: t).dropWhile p = c :: t := by
  induction a with
  | nil => simp [List.takeWhile_cons, List.dropWhile_cons, hc]
  | cons x xs ih =>
    have hx : p x := ha x (List.mem_cons_self x xs)
    have h2 := ih (fun y hy => ha y (List.mem_cons_of_mem x hy))
    simp [List.takeWhile_cons, List.dropWhile_cons, hx, h2.1, h2.2]

lemma all_takeWhile_self {p : Char → Bool} (a : List Char) (ha : ∀ x ∈ a, p x) :
    a.takeWhile p = a ∧ a.dropWhile p = [] := by
  induction a with
  | nil => simp
  | cons x xs ih =>
    have hx : p x := ha x (List.mem_cons_self x xs)
    have h2 := ih (fun y hy => ha y (List.mem_cons_of_mem x hy))
    simp [List.takeWhile_cons, List.dropWhile_cons, hx, h2.1, h2.2]

lemma head_dropWhile_false {p : Char → Bool} (l : List Char) :
    ∀ c, (l.dropWhile p).head? = some c → p c = false := by
  induction l with
  | nil => intro c hc; simp at hc
  | cons x xs ih =>
    intro c hc
    by_cases hx : p x
    · rw [List.dropWhile_cons, if_pos hx] at hc
      exact ih c hc
    · rw [List.dropWhile_cons, if_neg hx] at hc
      simp only [List.head?, Option.some.injEq] at hc
      subst hc
      simpa using hx

lemma decomp_unique {e1 e2 rest : List Char}
    (h1 : ∀ x ∈ e1, Char.isDigit x) (h2 : ∀ x ∈ e2, Char.isDigit x)
    (hrest : ∀ c, rest.head? = some c → Char.isDigit c = false) :
    (e1 ++ 'd' :: (e2 ++ rest)).takeWhile Char.isDigit = e1 ∧
    (e1 ++ 'd' :: (e2 ++ rest)).dropWhile Char.isDigit = 'd' :: (e2 ++ rest) ∧
    (e2 ++ rest).takeWhile Char.isDigit = e2 ∧
    (e2 ++ rest).dropWhile Char.isDigit = rest := by
  have hdd : Char.isDigit 'd' = false := by decide
  have ha := takeWhile_dropWhile_append e1 'd' (e2 ++ rest) h1 hdd
  have hb : (e2 ++ rest).takeWhile Char.isDigit = e2 ∧
      (e2 ++ rest).dropWhile Char.isDigit = rest := by
    cases rest with
    | nil => simpa using all_takeWhile_self e2 h2
    | cons c r =>
      have hc : Char.isDigit c = false := hrest c rfl
      exact takeWhile_dropWhile_append e2 c r h2 hc
  exact ⟨ha.1, ha.2, hb.1, hb.2⟩

lemma roll_dice_parse_isSome_iff (s : String) :
    (roll_dice_parse s).isSome = true ↔ diceAccepted s := by
  constructor
  · intro hsome
    by_cases h1 : ((pyStrip s.toList).takeWhile Char.isDigit).isEmpty = true
    · rw [show roll_dice_parse s = none by
        simp only [roll_dice_parse, if_pos h1]] at hsome
      exact absurd hsome (by simp)
    · rcases hd : (pyStrip s.toList).dropWhile Char.isDigit with _ | ⟨c, r2⟩
      · rw [show roll_dice_parse s = none by
          simp only [roll_dice_parse, if_neg h1, hd]] at hsome
        exact absurd hsome (by simp)
      · by_cases hc : c = 'd'
        · subst hc
          by_cases h2 : (r2.takeWhile Char.isDigit).isEmpty = true
          · rw [show roll_dice_parse s = none by
              simp only [roll_dice_parse, if_neg h1, hd, if_pos rfl, if_pos h2,
                ite_self]] at hsome
            exact absurd hsome (by simp)
          · refine ⟨(pyStrip s.toList).takeWhile Char.isDigit,
              r2.takeWhile Char.isDigit, r2.dropWhile Char.isDigit, ?_, ?_, ?_, ?_, ?_⟩
            · conv_lhs => rw [← List.takeWhile_append_dropWhile (p := Char.isDigit)
                (l := pyStrip s.toList)]
              rw [hd, List.takeWhile_append_dropWhile]
            · simpa using h1
            · simpa using h2
            · intro x hx; exact List.mem_takeWhile_imp hx
            · intro x hx; exact List.mem_takeWhile_imp hx
        · rw [show roll_dice_parse s = none by
            simp only [roll_dice_parse, if_neg h1, hd, if_neg hc]] at hsome
          exact absurd hsome (by simp)
  · rintro ⟨d1, d2, rest, heq, hne1, hne2, hdig1, hdig2⟩
    have hdd : Char.isDigit 'd' = false := by decide
    have hsplit := takeWhile_dropWhile_append d1 'd' (d2 ++ rest)
      (fun x hx => hdig1 x hx) hdd
    obtain ⟨x, d2t, rfl⟩ := List.exists_cons_of_ne_nil hne2
    have hx : Char.isDigit x = true := hdig2 x (List.mem_cons_self x d2t)
    have hne1b : (d1.isEmpty) = false := by
      cases d1 with
      | nil => exact absurd rfl hne1
      | cons a t => rfl
    simp only [roll_dice_parse, heq, hsplit.1, hsplit.2, hne1b]
    simp [List.takeWhile_cons, hx]

lemma roll_dice_parse_decomp (s : String) (c0 n0 : Nat) (m0 : Int)
    (hp : roll_dice_parse s = some (c0, n0, m0)) :
    ∃ d1 d2 rest, pyStrip s.toList = d1 ++ 'd' :: (d2 ++ rest) ∧
      d1 ≠ [] ∧ d2 ≠ [] ∧ (∀ c ∈ d1, Char.isDigit c) ∧ (∀ c ∈ d2, Char.isDigit c) ∧
      (∀ c, rest.head? = some c → Char.isDigit c = false) ∧
      c0 = natOfDigits d1 ∧ n0 = natOfDigits d2 := by
  by_cases h1 : ((pyStrip s.toList).takeWhile Char.isDigit).isEmpty = true
  · rw [show roll_dice_parse s = none by
      simp only [roll_dice_parse, if_pos h1]] at hp
    exact absurd hp (by simp)
  · rcases hd : (pyStrip s.toList).dropWhile Char.isDigit with _ | ⟨c, r2⟩
    · rw [show roll_dice_parse s = none by
        simp only [roll_dice_parse, if_neg h1, hd]] at hp
      exact absurd hp (by simp)
    · by_cases hc : c = 'd'
      · subst hc
        by_cases h2 : (r2.takeWhile Char.isDigit).isEmpty = true
        · rw [show roll_dice_parse s = none by
            simp only [roll_dice_parse, if_neg h1, hd, if_pos rfl, if_pos h2,
              ite_self]] at hp
          exact absurd hp (by simp)
        · simp only [roll_dice_parse, if_neg h1, hd, if_pos rfl, if_true, if_neg h2,
            Option.some.injEq, Prod.mk.injEq] at hp
          obtain ⟨hc0, hn0, -⟩ := hp
          refine ⟨(pyStrip s.toList).takeWhile Char.isDigit,
            r2.takeWhile Char.isDigit, r2.dropWhile Char.isDigit, ?_, ?_, ?_, ?_, ?_, ?_,
            hc0.symm, hn0.symm⟩
          · conv_lhs => rw [← List.takeWhile_append_dropWhile (p := Char.isDigit)
              (l := pyStrip s.toList)]
            rw [hd, List.takeWhile_append_dropWhile]
          · simpa using h1
          · simpa using h2
          · intro x hx; exact List.mem_takeWhile_imp hx
          · intro x hx; exact List.mem_takeWhile_imp hx
          · exact head_dropWhile_false r2
      · rw [show roll_dice_parse s = none by
          simp only [roll_dice_parse, if_neg h1, hd, if_neg hc]] at hp
        exact absurd hp (by simp)

/-- C4 counterexample: `2d6+4x` — a well-formed expression followed by
trailing garbage — is not of the full dice format, yet roll_dice accepts it
and returns a rolled 2d6+4 value, because `re.match` anchors only at the
start of the string; and `1d0`, also not of the full format (sides must be a
positive integer), is accepted by the match but then escapes as an uncaught
ValueError from `random.randint(1, 0)` instead of the claimed
invalid-expression error. -/
theorem roll_dice_garbage_and_zero_sides :
    roll_dice "2d6+4x" = RollOutcome.rolled 2 6 4 ∧ specDiceFormat "2d6+4x" = false ∧
    roll_dice "1d0" = RollOutcome.valueError ∧ specDiceFormat "1d0" = false := by
  decide

/-- C4 (amended): roll_dice returns a rolled value exactly when the stripped
input begins with one or more digits, then the letter d, then a digit run,
and the parsed sides value is nonzero or the parsed count is zero; inputs
without such a prefix get the invalid-expression error; inputs whose prefix
parses with count at least 1 and sides 0 (such as `1d0`) raise an uncaught
ValueError from `random.randint`, returning neither a value nor the
invalid-expression error; anything after the matched prefix (modifier aside)
is ignored rather than rejected. -/
theorem roll_dice_value_iff (s : String) :
    ((∃ count sides modifier, roll_dice s = RollOutcome.rolled count sides modifier) ↔
      diceValueSpec s) ∧
    (roll_dice s = RollOutcome.invalidExpr ↔ ¬ diceAccepted s) ∧
    (roll_dice s = RollOutcome.valueError ↔ (diceAccepted s ∧ ¬ diceValueSpec s)) := by
  have hvs_acc : diceValueSpec s → diceAccepted s := by
    rintro ⟨d1, d2, rest, heq, hne1, hne2, hd1, hd2, -, -⟩
    exact ⟨d1, d2, rest, heq, hne1, hne2, hd1, hd2⟩
  rcases hp : roll_dice_parse s with _ | ⟨⟨c0, n0, m0⟩⟩
  · have hacc : ¬ diceAccepted s := by
      intro hacc
      have hs := (roll_dice_parse_isSome_iff s).mpr hacc
      rw [hp] at hs
      exact absurd hs (by simp)
    have hrd : roll_dice s = RollOutcome.invalidExpr := by
      simp only [roll_dice, hp]
    refine ⟨⟨?_, ?_⟩, ⟨fun _ => hacc, fun _ => hrd⟩, ⟨?_, ?_⟩⟩
    · rintro ⟨c, n, m, h⟩; rw [hrd] at h; exact absurd h (by simp)
    · intro hv; exact absurd (hvs_acc hv) hacc
    · intro h; rw [hrd] at h; exact absurd h (by simp)
    · rintro ⟨ha, -⟩; exact absurd ha hacc
  · have hacc : diceAccepted s := by
      refine (roll_dice_parse_isSome_iff s).mp ?_
      rw [hp]; rfl
    obtain ⟨d1, d2, rest, heq, hne1, hne2, hd1, hd2, hmax, hc0, hn0⟩ :=
      roll_dice_parse_decomp s c0 n0 m0 hp
    have hvs_iff : diceValueSpec s ↔ (n0 ≠ 0 ∨ c0 = 0) := by
      constructor
      · rintro ⟨e1, e2, rest2, heq2, hne12, hne22, he1, he2, hmax2, hcond2⟩
        have u1 := decomp_unique hd1 hd2 hmax
        have u2 := decomp_unique he1 he2 hmax2
        rw [heq] at heq2
        have ht : d1 = e1 := by
          have := congrArg (List.takeWhile Char.isDigit) heq2
          rwa [u1.1, u2.1] at this
        have hdw := congrArg (List.dropWhile Char.isDigit) heq2
        rw [u1.2.1, u2.2.1] at hdw
        injection hdw with _ hdr
        have ht2 : d2 = e2 := by
          have := congrArg (List.takeWhile Char.isDigit) hdr
          rwa [u1.2.2.1, u2.2.2.1] at this
        rw [hc0, hn0, ht, ht2]
        exact hcond2
      · intro hcond
        refine ⟨d1, d2, rest, heq, hne1, hne2, hd1, hd2, hmax, ?_⟩
        rw [← hn0, ← hc0]
        exact hcond
    by_cases hbad : 1 ≤ c0 ∧ n0 = 0
    · have hrd : roll_dice s = RollOutcome.valueError := by
        simp only [roll_dice, hp]
        rw [if_pos hbad]
      have hnv : ¬ diceValueSpec s := by
        rw [hvs_iff]
        omega
      refine ⟨⟨?_, ?_⟩, ⟨?_, fun hna => absurd hacc hna⟩, ⟨fun _ => ⟨hacc, hnv⟩, fun _ => hrd⟩⟩
      · rintro ⟨c, n, m, h⟩; rw [hrd] at h; exact absurd h (by simp)
      · intro hv; exact absurd hv hnv
      · intro h; rw [hrd] at h; exact absurd h (by simp)
    · have hrd : roll_dice s = RollOutcome.rolled c0 n0 m0 := by
        simp only [roll_dice, hp]
        rw [if_neg hbad]
      have hv : diceValueSpec s := by
        rw [hvs_iff]
        omega
      refine ⟨⟨fun _ => hv, fun _ => ⟨c0, n0, m0, hrd⟩⟩, ⟨?_, fun hna => absurd hacc hna⟩, ⟨?_, ?_⟩⟩
      · intro h; rw [hrd] at h; exact absurd h (by simp)
      · intro h; rw [hrd] at h; exact absurd h (by simp)
      · rintro ⟨-, hnv⟩; exact absurd hv hnv

end DiceTheorems

end DndMcp
